import Mathlib

/-!
Shallow embedding of `src/Stationary.py` (Stationary_Manager).

The SQLite database is modelled as an explicit state `DB`: the three tables
`users`, `items`, `transactions` are lists in insertion (rowid) order, with
the AUTOINCREMENT counters carried explicitly.  REAL prices are modelled as
rationals, INTEGER columns as `Int`/`Nat`.  The DATE column (written from
`datetime.date.today()`) is a year/month/day triple; SQLite's
`strftime` month/year extraction used by `get_monthly_usage` is modelled as
the numeric month/year fields, which agrees with the string comparison
`strftime(..) = f"{month:02d}" / str(year)` for every date `datetime.date`
can produce and every month `1..12` / 4-digit year the UI can pass.
The SHA-256 hex digest from `hashlib` (an external collaborator) is an
arbitrary function parameter `sha256hex`.  Each mutating function returns
the new `DB` alongside its Python return value.
-/

namespace Stationary

/-- Row of the `users` table: `username TEXT PRIMARY KEY, password_hash TEXT`. -/
structure Credential where
  username : String
  password_hash : String
deriving Repr, DecidableEq

/-- Row of the `items` table. -/
structure Item where
  id : Nat
  name : String
  shelf : Int
  row : Int
  price : ℚ
  stock : Int
  low_stock_threshold : Int
deriving Repr, DecidableEq

/-- A calendar date as produced by `datetime.date.today()`. -/
structure PyDate where
  year : Nat
  month : Nat
  day : Nat
deriving Repr, DecidableEq

/-- Row of the `transactions` table. -/
structure Transaction where
  trans_id : Nat
  item_id : Nat
  trans_date : PyDate
  quantity : Int
  trans_type : String
  user : String
deriving Repr, DecidableEq

/-- The SQLite database state: the three tables in rowid (insertion) order,
plus the AUTOINCREMENT counters for `items.id` and `transactions.trans_id`. -/
structure DB where
  users : List Credential
  items : List Item
  transactions : List Transaction
  next_item_id : Nat
  next_trans_id : Nat
deriving Repr, DecidableEq

/-- SQL aggregate `SELECT SUM(..)`: NULL (`none`) when there are no rows. -/
def sqlSumInt (xs : List Int) : Option Int :=
  match xs with
  | [] => none
  | _ => some xs.sum

/-- SQL aggregate `SELECT SUM(..)` over REAL values. -/
def sqlSumRat (xs : List ℚ) : Option ℚ :=
  match xs with
  | [] => none
  | _ => some xs.sum

-- The password-hashing collaborator (`hashlib.sha256(..).hexdigest()`).
-- Kept abstract, as the spec treats it as an external one-way hash.
variable (sha256hex : String → String)

/-- `hash_password(password)`: return the hex digest of the password. -/
def hash_password (password : String) : String :=
  sha256hex password

/-- `add_user(username, password)`: INSERT into `users`; the PRIMARY KEY
constraint raises `IntegrityError` when the username already exists, in
which case the function returns `False` and the state is unchanged. -/
def add_user (db : DB) (username password : String) : Bool × DB :=
  if db.users.any (fun c => c.username == username) then
    (false, db)
  else
    (true, { db with users := db.users ++ [⟨username, hash_password sha256hex password⟩] })

/-- `verify_user(username, password)`: SELECT a row whose username and
password hash both match; true iff one exists. -/
def verify_user (db : DB) (username password : String) : Bool :=
  db.users.any (fun c =>
    c.username == username && c.password_hash == hash_password sha256hex password)

/-- The character Python's `str` uses for the decimal digit `d`. -/
def pyDigitChar (d : Nat) : Char :=
  Nat.digitChar d

/-- Python `str(n)` for a non-negative integer: its decimal digit string. -/
def pyStr (n : Nat) : List Char :=
  if n = 0 then ['0'] else ((Nat.digits 10 n).reverse.map pyDigitChar)

/-- Whether a character is a decimal digit. -/
def isDecDigit (c : Char) : Bool :=
  48 ≤ c.toNat && c.toNat ≤ 57

/-- Numeric value of a decimal digit character. -/
def decDigitVal (c : Char) : Nat :=
  c.toNat - 48

/-- Python `int(s)` on a scanned payload: parses a non-empty all-digit
string to the number it denotes, and raises `ValueError` (`none`) otherwise. -/
def pyInt (s : List Char) : Option Nat :=
  if (!s.isEmpty) && s.all isDecDigit then
    some (Nat.ofDigits 10 ((s.map decDigitVal).reverse))
  else
    none

/-- `generate_qr(item_id)`: the payload embedded in the QR image is
`str(item_id)`; the image wrapper around it is the external QR codec. -/
def generate_qr (item_id : Nat) : List Char :=
  pyStr item_id

/-- The scan handler's decoding step:
`int(decoded_objects[0].data.decode(..))` applied to the QR payload. -/
def scan_decode (payload : List Char) : Option Nat :=
  pyInt payload

/-- `add_item(name, shelf, row, price, initial_stock, low_stock_threshold)`:
INSERT the row (the AUTOINCREMENT id is `next_item_id`), and return
`(item_id, qr_bytes)` alongside the new state. -/
def add_item (db : DB) (name : String) (shelf row : Int) (price : ℚ)
    (initial_stock low_stock_threshold : Int) : DB × Nat × List Char :=
  let item_id := db.next_item_id
  let db1 : DB := { db with
    items := db.items ++ [⟨item_id, name, shelf, row, price, initial_stock, low_stock_threshold⟩],
    next_item_id := db.next_item_id + 1 }
  (db1, item_id, generate_qr item_id)

/-- `update_stock(item_id, quantity, user)`: `trans_type` is `'add'` when
`quantity > 0`, else `'remove'`; UPDATE adds `quantity` to the stock of
every `items` row whose id matches (at most one, ids being the PRIMARY KEY),
then INSERT one `transactions` row with `abs(quantity)`, today's date and
the acting user.  There is no existence check and no magnitude check. -/
def update_stock (today : PyDate) (db : DB) (item_id : Nat) (quantity : Int)
    (user : String) : DB :=
  let trans_type : String := if quantity > 0 then "add" else "remove"
  { db with
    items := db.items.map (fun i =>
      if i.id = item_id then { i with stock := i.stock + quantity } else i),
    transactions := db.transactions ++
      [⟨db.next_trans_id, item_id, today, |quantity|, trans_type, user⟩],
    next_trans_id := db.next_trans_id + 1 }

/-- `get_monthly_usage(month, year)`: SUM of `quantity` over `transactions`
rows with `trans_type = 'remove'` whose date's month and year match;
`or 0` turns the NULL of an empty SUM into 0. -/
def get_monthly_usage (db : DB) (month year : Nat) : Int :=
  (sqlSumInt ((db.transactions.filter (fun t =>
    t.trans_type == "remove" && t.trans_date.month == month
      && t.trans_date.year == year)).map (fun t => t.quantity))).getD 0

/-- `get_current_stock_value()`: `SELECT SUM(stock * price) FROM items`,
with `or 0` turning the NULL of an empty SUM into 0. -/
def get_current_stock_value (db : DB) : ℚ :=
  (sqlSumRat (db.items.map (fun i => (i.stock : ℚ) * i.price))).getD 0

/-- `get_low_stock_items()`: the `(id, name, stock, low_stock_threshold)`
tuples of the `items` rows with `stock < low_stock_threshold`, in table
scan (rowid) order. -/
def get_low_stock_items (db : DB) : List (Nat × String × Int × Int) :=
  (db.items.filter (fun i => i.stock < i.low_stock_threshold)).map
    (fun i => (i.id, i.name, i.stock, i.low_stock_threshold))

/-- The scan handler's existence lookup:
`SELECT name, stock FROM items WHERE id = ?` followed by `fetchone()`. -/
def find_item (db : DB) (item_id : Nat) : Option Item :=
  db.items.find? (fun i => i.id == item_id)

/-- A sequence of `update_stock` calls against one item: each call carries
its signed quantity, acting user and calendar date. -/
def apply_updates (item_id : Nat) (db : DB)
    (calls : List (Int × String × PyDate)) : DB :=
  calls.foldl (fun d c => update_stock c.2.2 d item_id c.1 c.2.1) db

/-- A concrete catalog row used for concrete instantiations. -/
def exPen : Item := ⟨1, "Pen", 1, 1, 2, 20, 10⟩

/-- A concrete database holding one item (id 1) and no other rows. -/
def exCatalogDB : DB := ⟨[], [exPen], [], 2, 1⟩

/-- A concrete calendar date. -/
def exDate : PyDate := ⟨2024, 5, 17⟩

/-- The freshly created, empty database. -/
def exEmptyDB : DB := ⟨[], [], [], 1, 1⟩

/-! ## Helper lemmas -/

lemma decDigitVal_pyDigitChar : ∀ d < 10, decDigitVal (pyDigitChar d) = d := by
  decide

lemma isDecDigit_pyDigitChar : ∀ d < 10, isDecDigit (pyDigitChar d) = true := by
  decide

lemma pyInt_pyStr (n : Nat) : pyInt (pyStr n) = some n := by
  by_cases h : n = 0
  · subst h
    decide
  · have hne : Nat.digits 10 n ≠ [] := Nat.digits_ne_nil_iff_ne_zero.mpr h
    have hlt : ∀ d ∈ Nat.digits 10 n, d < 10 := fun d hd =>
      Nat.digits_lt_base (by norm_num) hd
    unfold pyStr
    rw [if_neg h]
    unfold pyInt
    have hall : ((Nat.digits 10 n).reverse.map pyDigitChar).all isDecDigit = true := by
      rw [List.all_eq_true]
      intro c hc
      rcases List.mem_map.mp hc with ⟨d, hd, rfl⟩
      exact isDecDigit_pyDigitChar d (hlt d (List.mem_reverse.mp hd))
    have hemp : ((Nat.digits 10 n).reverse.map pyDigitChar).isEmpty = false := by
      rw [List.isEmpty_eq_false_iff_exists_mem]
      rcases List.exists_mem_of_ne_nil _ hne with ⟨d, hd⟩
      exact ⟨pyDigitChar d, List.mem_map.mpr ⟨d, List.mem_reverse.mpr hd, rfl⟩⟩
    rw [hemp, hall]
    simp only [Bool.not_false, Bool.true_and, if_pos]
    have hmap : ((Nat.digits 10 n).reverse.map pyDigitChar).map decDigitVal
        = (Nat.digits 10 n).reverse := by
      rw [List.map_map]
      have : ∀ d ∈ (Nat.digits 10 n).reverse, (decDigitVal ∘ pyDigitChar) d = id d := by
        intro d hd
        exact decDigitVal_pyDigitChar d (hlt d (List.mem_reverse.mp hd))
      rw [List.map_congr_left this, List.map_id]
    rw [hmap, List.reverse_reverse, Nat.ofDigits_digits]

lemma item_stock_add_zero (i : Item) : { i with stock := i.stock + 0 } = i := by
  cases i
  simp

lemma find_item_update_stock (today : PyDate) (db : DB) (iid : Nat) (q : Int)
    (u : String) :
    find_item (update_stock today db iid q u) iid
      = (find_item db iid).map (fun i => { i with stock := i.stock + q }) := by
  unfold find_item update_stock
  simp only
  rw [List.find?_map]
  have hp : ((fun i : Item => i.id == iid) ∘
      (fun i : Item => if i.id = iid then { i with stock := i.stock + q } else i))
      = fun i : Item => i.id == iid := by
    funext i
    by_cases h : i.id = iid <;> simp [h]
  rw [hp]
  cases hfind : db.items.find? (fun i => i.id == iid) with
  | none => rfl
  | some i =>
    have : i.id = iid := by
      have := List.find?_some hfind
      simpa using this
    simp [Option.map, this]

lemma find_item_apply_updates (iid : Nat) (calls : List (Int × String × PyDate)) :
    ∀ db : DB, find_item (apply_updates iid db calls) iid
      = (find_item db iid).map
          (fun i => { i with stock := i.stock + (calls.map (fun c => c.1)).sum }) := by
  induction calls with
  | nil =>
    intro db
    cases hfind : find_item db iid with
    | none => simp [apply_updates, hfind]
    | some i =>
      simp [apply_updates, hfind, item_stock_add_zero]
  | cons c cs ih =>
    intro db
    have hstep : apply_updates iid db (c :: cs)
        = apply_updates iid (update_stock c.2.2 db iid c.1 c.2.1) cs := rfl
    rw [hstep, ih, find_item_update_stock]
    cases hfind : find_item db iid with
    | none => rfl
    | some i =>
      simp [Option.map, add_assoc]

lemma find_item_add_item_fresh (db : DB) (name : String) (shelf row : Int)
    (price : ℚ) (s0 thr : Int) (hfresh : ∀ i ∈ db.items, i.id ≠ db.next_item_id) :
    find_item (add_item db name shelf row price s0 thr).1 db.next_item_id
      = some ⟨db.next_item_id, name, shelf, row, price, s0, thr⟩ := by
  unfold find_item add_item
  simp only
  rw [List.find?_append]
  have hnone : db.items.find? (fun i => i.id == db.next_item_id) = none := by
    rw [List.find?_eq_none]
    intro i hi
    simpa using hfresh i hi
  rw [hnone]
  simp

lemma sqlSumInt_getD (xs : List Int) : (sqlSumInt xs).getD 0 = xs.sum := by
  cases xs <;> rfl

lemma sqlSumRat_getD (xs : List ℚ) : (sqlSumRat xs).getD 0 = xs.sum := by
  cases xs <;> rfl

lemma pairwise_id_inj {l : List Item} (h : l.Pairwise (fun a b => a.id < b.id)) :
    ∀ i ∈ l, ∀ j ∈ l, i.id = j.id → i = j := by
  induction l with
  | nil => simp
  | cons a tl ih =>
    intro i hi j hj hij
    have ha : ∀ b ∈ tl, a.id < b.id := (List.pairwise_cons.mp h).1
    have htl : tl.Pairwise (fun a b => a.id < b.id) := (List.pairwise_cons.mp h).2
    rcases List.mem_cons.mp hi with rfl | hi1
    · rcases List.mem_cons.mp hj with rfl | hj1
      · rfl
      · exact absurd hij (by have := ha j hj1; omega)
    · rcases List.mem_cons.mp hj with rfl | hj1
      · exact absurd hij (by have := ha i hi1; omega)
      · exact ih htl i hi1 j hj1 hij

/-! ## Claim theorems -/

/-- Claim C8: for every non-negative integer n, feeding the payload that
`generate_qr` embeds for item id n into the scan handler's decoding step
yields n back: decode of encode round-trips. -/
theorem qr_payload_roundtrip (n : Nat) : scan_decode (generate_qr n) = some n := by
  unfold scan_decode generate_qr
  exact pyInt_pyStr n

/-- Claim C1, counterexample: in the concrete database whose only item has
id 1, calling `update_stock` on the non-existent item id 2 does not fail
and appends a transactions row (the claim says it fails with ItemNotFound
and appends no LedgerEntry). -/
theorem update_stock_missing_item_cex :
    (∀ i ∈ exCatalogDB.items, i.id ≠ 2) ∧
    (update_stock exDate exCatalogDB 2 5 "alice").transactions ≠ exCatalogDB.transactions ∧
    (update_stock exDate exCatalogDB 2 5 "alice").transactions.length
      = exCatalogDB.transactions.length + 1 := by
  refine ⟨by decide, by decide, by decide⟩

/-- Claim C1, amended: `update_stock` performs no existence check.  On an
`item_id` resolving to no Item it changes no item row and no credential,
but it does not fail: it still appends exactly one transactions row
referencing the missing id (the ItemNotFound rejection happens in the
scan-handler caller, which looks the item up before `update_stock` runs). -/
theorem update_stock_missing_item (db : DB) (iid : Nat) (q : Int) (u : String)
    (today : PyDate) (hmiss : ∀ i ∈ db.items, i.id ≠ iid) :
    (update_stock today db iid q u).items = db.items ∧
    (update_stock today db iid q u).users = db.users ∧
    (update_stock today db iid q u).transactions = db.transactions ++
      [⟨db.next_trans_id, iid, today, |q|, if q > 0 then "add" else "remove", u⟩] := by
  refine ⟨?_, rfl, rfl⟩
  show db.items.map _ = db.items
  have : ∀ i ∈ db.items,
      (if i.id = iid then { i with stock := i.stock + q } else i) = id i := by
    intro i hi
    rw [if_neg (hmiss i hi)]
    rfl
  rw [List.map_congr_left this, List.map_id]

/-- Witness for the amended C1 theorem at the concrete one-item database. -/
theorem update_stock_missing_item_w :
    (∀ i ∈ exCatalogDB.items, i.id ≠ 2) ∧
    ((update_stock exDate exCatalogDB 2 5 "alice").items = exCatalogDB.items ∧
     (update_stock exDate exCatalogDB 2 5 "alice").users = exCatalogDB.users ∧
     (update_stock exDate exCatalogDB 2 5 "alice").transactions = exCatalogDB.transactions ++
       [⟨exCatalogDB.next_trans_id, 2, exDate, |(5 : Int)|, if (5 : Int) > 0 then "add" else "remove", "alice"⟩]) :=
  ⟨by decide, update_stock_missing_item exCatalogDB 2 5 "alice" exDate (by decide)⟩

/-- Claim C4, counterexample: in the concrete one-item database, calling
`update_stock` with signed quantity 0 does not fail with ValidationError:
it appends a transactions row with quantity 0 and direction remove (the
claim says the call is rejected and no LedgerEntry is written). -/
theorem update_stock_zero_cex :
    (update_stock exDate exCatalogDB 1 0 "alice").transactions.length
      = exCatalogDB.transactions.length + 1 ∧
    (update_stock exDate exCatalogDB 1 0 "alice").transactions
      = [⟨1, 1, exDate, 0, "remove", "alice"⟩] := by
  refine ⟨by decide, by decide⟩

/-- Claim C4, amended: `update_stock` performs no magnitude validation.
Called with signed quantity 0 it does not fail: it leaves every item row
unchanged (the UPDATE adds 0) and every credential unchanged, and appends
one transactions row with quantity 0 and direction remove; zero quantities
are prevented only by the UI, whose quantity input has a minimum of 1. -/
theorem update_stock_zero_effect (db : DB) (iid : Nat) (u : String) (today : PyDate) :
    (update_stock today db iid 0 u).items = db.items ∧
    (update_stock today db iid 0 u).users = db.users ∧
    (update_stock today db iid 0 u).transactions = db.transactions ++
      [⟨db.next_trans_id, iid, today, 0, "remove", u⟩] := by
  refine ⟨?_, rfl, rfl⟩
  show db.items.map _ = db.items
  have : ∀ i ∈ db.items,
      (if i.id = iid then { i with stock := i.stock + 0 } else i) = id i := by
    intro i _
    rw [item_stock_add_zero]
    split <;> rfl
  rw [List.map_congr_left this, List.map_id]

/-- Claim C2: on an existing item and a non-zero signed quantity, one
`update_stock` call performs both sub-effects in the one state transition:
the item's stock grows by the signed quantity (all its other fields kept),
and exactly one transactions row is appended, carrying the item id, the
magnitude as quantity, direction add for positive / remove for negative,
the current date and the acting user. -/
theorem update_stock_pair_effect (db : DB) (iid : Nat) (q : Int) (u : String)
    (today : PyDate) (i : Item) (hfind : find_item db iid = some i) (hq : q ≠ 0) :
    find_item (update_stock today db iid q u) iid = some { i with stock := i.stock + q } ∧
    ∃ e : Transaction,
      (update_stock today db iid q u).transactions = db.transactions ++ [e] ∧
      e.item_id = iid ∧ e.quantity = |q| ∧ e.trans_date = today ∧ e.user = u ∧
      (0 < q → e.trans_type = "add") ∧ (q < 0 → e.trans_type = "remove") := by
  refine ⟨?_, ⟨_, rfl, rfl, rfl, rfl, rfl, ?_, ?_⟩⟩
  · rw [find_item_update_stock, hfind]
    rfl
  · intro hpos
    simp only
    rw [if_pos hpos]
  · intro hneg
    simp only
    rw [if_neg (by omega)]

/-- Witness for C2 at the concrete one-item database, removing 15. -/
theorem update_stock_pair_effect_w :
    find_item exCatalogDB 1 = some exPen ∧ (-15 : Int) ≠ 0 ∧
    (find_item (update_stock exDate exCatalogDB 1 (-15) "alice") 1
        = some { exPen with stock := exPen.stock + (-15) } ∧
      ∃ e : Transaction,
        (update_stock exDate exCatalogDB 1 (-15) "alice").transactions
          = exCatalogDB.transactions ++ [e] ∧
        e.item_id = 1 ∧ e.quantity = |(-15 : Int)| ∧ e.trans_date = exDate ∧
        e.user = "alice" ∧
        (0 < (-15 : Int) → e.trans_type = "add") ∧
        ((-15 : Int) < 0 → e.trans_type = "remove")) :=
  ⟨by decide, by decide,
    update_stock_pair_effect exCatalogDB 1 (-15) "alice" exDate exPen (by decide) (by decide)⟩

/-- Claim C3: create an item with some initial stock in a database whose
rows do not already use the to-be-assigned id, then run any finite sequence
of `update_stock` calls against it; its stock afterwards is the initial
stock plus the sum of the signed quantities (no floor, possibly negative),
and all its other fields are the creation-time values. -/
theorem stock_sum_invariant (db : DB) (name : String) (shelf row : Int)
    (price : ℚ) (s0 thr : Int) (calls : List (Int × String × PyDate))
    (hfresh : ∀ i ∈ db.items, i.id ≠ db.next_item_id) :
    find_item
        (apply_updates (add_item db name shelf row price s0 thr).2.1
          (add_item db name shelf row price s0 thr).1 calls)
        (add_item db name shelf row price s0 thr).2.1
      = some ⟨db.next_item_id, name, shelf, row, price,
          s0 + (calls.map (fun c => c.1)).sum, thr⟩ := by
  have hid : (add_item db name shelf row price s0 thr).2.1 = db.next_item_id := rfl
  rw [hid, find_item_apply_updates,
    find_item_add_item_fresh db name shelf row price s0 thr hfresh]
  rfl

/-- Witness for C3: from the empty database, create an item with stock 20
and adjust by -15 then +2; the stock ends at 7. -/
theorem stock_sum_invariant_w :
    (∀ i ∈ exEmptyDB.items, i.id ≠ exEmptyDB.next_item_id) ∧
    find_item
        (apply_updates (add_item exEmptyDB "Pen" 1 1 2 20 10).2.1
          (add_item exEmptyDB "Pen" 1 1 2 20 10).1
          [(-15, "alice", exDate), (2, "bob", exDate)])
        (add_item exEmptyDB "Pen" 1 1 2 20 10).2.1
      = some ⟨exEmptyDB.next_item_id, "Pen", 1, 1, 2,
          20 + ([(-15, "alice", exDate), (2, "bob", exDate)].map
            (fun c : Int × String × PyDate => c.1)).sum, 10⟩ :=
  ⟨by decide,
    stock_sum_invariant exEmptyDB "Pen" 1 1 2 20 10
      [(-15, "alice", exDate), (2, "bob", exDate)] (by decide)⟩

/-- Claim C5: `get_monthly_usage` returns the sum of `quantity` over exactly
the transactions rows with direction remove whose date lies in the given
month and year; it returns 0 when no such row exists, and appending a row
that is an add or lies in another month or year leaves the result
unchanged. -/
theorem monthly_usage_spec (db : DB) (m y : Nat) :
    get_monthly_usage db m y
      = ((db.transactions.filter (fun t =>
          t.trans_type == "remove" && t.trans_date.month == m
            && t.trans_date.year == y)).map (fun t => t.quantity)).sum ∧
    (db.transactions.filter (fun t =>
        t.trans_type == "remove" && t.trans_date.month == m
          && t.trans_date.year == y) = [] → get_monthly_usage db m y = 0) ∧
    ∀ t : Transaction,
      (t.trans_type ≠ "remove" ∨ t.trans_date.month ≠ m ∨ t.trans_date.year ≠ y) →
      get_monthly_usage { db with transactions := db.transactions ++ [t] } m y
        = get_monthly_usage db m y := by
  refine ⟨?_, ?_, ?_⟩
  · unfold get_monthly_usage
    rw [sqlSumInt_getD]
  · intro hnil
    unfold get_monthly_usage
    rw [sqlSumInt_getD, hnil]
    rfl
  · intro t ht
    have hf : (fun t' : Transaction =>
        t'.trans_type == "remove" && t'.trans_date.month == m
          && t'.trans_date.year == y) t = false := by
      rcases ht with h | h | h <;> simp [h]
    unfold get_monthly_usage
    rw [sqlSumInt_getD, sqlSumInt_getD]
    simp only [List.filter_append, List.filter_cons, hf, Bool.false_eq_true,
      if_false, List.filter_nil, List.append_nil]

/-- Witness for C5 at a concrete database with one remove of 3 and one
remove of 4 in May 2024 plus one add, queried for May 2024. -/
theorem monthly_usage_spec_w :
    get_monthly_usage
        (update_stock exDate
          (update_stock exDate (update_stock exDate exCatalogDB 1 (-3) "alice")
            1 (-4) "bob") 1 6 "alice") 5 2024
      = (((update_stock exDate
          (update_stock exDate (update_stock exDate exCatalogDB 1 (-3) "alice")
            1 (-4) "bob") 1 6 "alice").transactions.filter (fun t =>
          t.trans_type == "remove" && t.trans_date.month == 5
            && t.trans_date.year == 2024)).map (fun t => t.quantity)).sum ∧
    ((update_stock exDate
        (update_stock exDate (update_stock exDate exCatalogDB 1 (-3) "alice")
          1 (-4) "bob") 1 6 "alice").transactions.filter (fun t =>
        t.trans_type == "remove" && t.trans_date.month == 5
          && t.trans_date.year == 2024) = [] →
      get_monthly_usage
        (update_stock exDate
          (update_stock exDate (update_stock exDate exCatalogDB 1 (-3) "alice")
            1 (-4) "bob") 1 6 "alice") 5 2024 = 0) ∧
    ∀ t : Transaction,
      (t.trans_type ≠ "remove" ∨ t.trans_date.month ≠ 5 ∨ t.trans_date.year ≠ 2024) →
      get_monthly_usage
        { (update_stock exDate
            (update_stock exDate (update_stock exDate exCatalogDB 1 (-3) "alice")
              1 (-4) "bob") 1 6 "alice") with
          transactions := (update_stock exDate
            (update_stock exDate (update_stock exDate exCatalogDB 1 (-3) "alice")
              1 (-4) "bob") 1 6 "alice").transactions ++ [t] } 5 2024
        = get_monthly_usage
            (update_stock exDate
              (update_stock exDate (update_stock exDate exCatalogDB 1 (-3) "alice")
                1 (-4) "bob") 1 6 "alice") 5 2024 :=
  monthly_usage_spec
    (update_stock exDate
      (update_stock exDate (update_stock exDate exCatalogDB 1 (-3) "alice")
        1 (-4) "bob") 1 6 "alice") 5 2024

/-- Claim C6: under distinct ascending item ids (the PRIMARY KEY discipline),
`get_low_stock_items` contains an item's row exactly when its stock is
strictly below its threshold — so a stock equal to the threshold is
excluded — and the returned rows are in ascending id order. -/
theorem low_stock_spec (db : DB)
    (hsort : db.items.Pairwise (fun a b => a.id < b.id)) :
    (∀ i ∈ db.items,
      ((i.id, i.name, i.stock, i.low_stock_threshold) ∈ get_low_stock_items db
        ↔ i.stock < i.low_stock_threshold)) ∧
    (∀ i ∈ db.items, i.stock = i.low_stock_threshold →
      (i.id, i.name, i.stock, i.low_stock_threshold) ∉ get_low_stock_items db) ∧
    (get_low_stock_items db).Pairwise (fun a b => a.1 < b.1) := by
  have hmem : ∀ i ∈ db.items,
      ((i.id, i.name, i.stock, i.low_stock_threshold) ∈ get_low_stock_items db
        ↔ i.stock < i.low_stock_threshold) := by
    intro i hi
    unfold get_low_stock_items
    constructor
    · intro hin
      rcases List.mem_map.mp hin with ⟨j, hj, hproj⟩
      have hj1 := List.mem_filter.mp hj
      have hid : j.id = i.id := by
        have := congrArg Prod.fst hproj
        simpa using this
      have : j = i := pairwise_id_inj hsort j hj1.1 i hi hid
      subst this
      simpa using hj1.2
    · intro hlt
      exact List.mem_map.mpr ⟨i, List.mem_filter.mpr ⟨hi, by simpa using hlt⟩, rfl⟩
  refine ⟨hmem, ?_, ?_⟩
  · intro i hi heq hin
    have := (hmem i hi).mp hin
    omega
  · unfold get_low_stock_items
    rw [List.pairwise_map]
    exact List.Pairwise.filter _ hsort

/-- Witness for C6 at a concrete database: after removing 15 from the item
with stock 20 and threshold 10, its row is listed. -/
theorem low_stock_spec_w :
    (update_stock exDate exCatalogDB 1 (-15) "alice").items.Pairwise
        (fun a b => a.id < b.id) ∧
    ((∀ i ∈ (update_stock exDate exCatalogDB 1 (-15) "alice").items,
      ((i.id, i.name, i.stock, i.low_stock_threshold)
          ∈ get_low_stock_items (update_stock exDate exCatalogDB 1 (-15) "alice")
        ↔ i.stock < i.low_stock_threshold)) ∧
    (∀ i ∈ (update_stock exDate exCatalogDB 1 (-15) "alice").items,
      i.stock = i.low_stock_threshold →
      (i.id, i.name, i.stock, i.low_stock_threshold)
        ∉ get_low_stock_items (update_stock exDate exCatalogDB 1 (-15) "alice")) ∧
    (get_low_stock_items (update_stock exDate exCatalogDB 1 (-15) "alice")).Pairwise
      (fun a b => a.1 < b.1)) :=
  ⟨by decide, low_stock_spec (update_stock exDate exCatalogDB 1 (-15) "alice") (by decide)⟩

/-- Claim C7: `add_user` fails (returns False, from the PRIMARY KEY
IntegrityError) exactly when the username already exists; on success the
stored credential holds the hash of the password, not the plaintext; and
`verify_user` is true exactly when some stored credential has that username
and a stored hash equal to the hash of the supplied password. -/
theorem credential_spec (db : DB) (u p : String) :
    ((add_user sha256hex db u p).1 = false ↔ ∃ c ∈ db.users, c.username = u) ∧
    ((add_user sha256hex db u p).1 = true →
      (add_user sha256hex db u p).2.users = db.users ++ [⟨u, sha256hex p⟩]) ∧
    (verify_user sha256hex db u p = true ↔
      ∃ c ∈ db.users, c.username = u ∧ c.password_hash = sha256hex p) := by
  unfold add_user verify_user hash_password
  by_cases hmem : db.users.any (fun c => c.username == u) = true
  · rw [if_pos hmem]
    refine ⟨?_, ?_, ?_⟩
    · simp only [List.any_eq_true, beq_iff_eq] at hmem
      exact iff_of_true rfl hmem
    · intro h
      cases h
    · simp [List.any_eq_true]
  · rw [if_neg hmem]
    refine ⟨?_, fun _ => rfl, ?_⟩
    · simp only [List.any_eq_true, beq_iff_eq] at hmem
      constructor
      · intro h
        cases h
      · intro h
        exact absurd h hmem
    · simp [List.any_eq_true]

/-- Witness for C7 with a concrete hash function, user store, and
credentials. -/
theorem credential_spec_w :
    ((add_user (fun s => String.append s "#h") exCatalogDB "alice" "pw1").1 = false
        ↔ ∃ c ∈ exCatalogDB.users, c.username = "alice") ∧
    ((add_user (fun s => String.append s "#h") exCatalogDB "alice" "pw1").1 = true →
      (add_user (fun s => String.append s "#h") exCatalogDB "alice" "pw1").2.users
        = exCatalogDB.users ++ [⟨"alice", (fun s => String.append s "#h") "pw1"⟩]) ∧
    (verify_user (fun s => String.append s "#h") exCatalogDB "alice" "pw1" = true ↔
      ∃ c ∈ exCatalogDB.users, c.username = "alice"
        ∧ c.password_hash = (fun s => String.append s "#h") "pw1") :=
  credential_spec (fun s => String.append s "#h") exCatalogDB "alice" "pw1"

/-- Claim C9: `get_current_stock_value` is the sum over all items of
stock times unit price, read from the live stock column of the state passed
at call time (it takes no month or year), and is 0 on an empty catalog. -/
theorem stock_value_spec (db : DB) :
    get_current_stock_value db
      = (db.items.map (fun i => (i.stock : ℚ) * i.price)).sum ∧
    ∀ us ts ni nt, get_current_stock_value ⟨us, [], ts, ni, nt⟩ = 0 := by
  refine ⟨?_, fun us ts ni nt => rfl⟩
  unfold get_current_stock_value
  rw [sqlSumRat_getD]

/-- Claim C10: no operation rewrites or deletes an existing transactions
row — `add_user` and `add_item` leave the log untouched and `update_stock`
only appends one row — and `update_stock` touches nothing but the stock
field of the addressed item: its other fields, every other item, and every
credential are unchanged. -/
theorem frame_append_only (db : DB) (u p nm : String) (sh rw : Int) (pr : ℚ)
    (s0 thr : Int) (iid : Nat) (q : Int) (actor : String) (today : PyDate) :
    (add_user sha256hex db u p).2.transactions = db.transactions ∧
    (add_item db nm sh rw pr s0 thr).1.transactions = db.transactions ∧
    (∃ e, (update_stock today db iid q actor).transactions = db.transactions ++ [e]) ∧
    (update_stock today db iid q actor).users = db.users ∧
    List.Forall₂ (fun i j : Item =>
        (i.id ≠ iid → j = i) ∧
        (i.id = iid → j.id = i.id ∧ j.name = i.name ∧ j.shelf = i.shelf ∧
          j.row = i.row ∧ j.price = i.price ∧
          j.low_stock_threshold = i.low_stock_threshold ∧ j.stock = i.stock + q))
      db.items (update_stock today db iid q actor).items := by
  refine ⟨?_, rfl, ⟨_, rfl⟩, rfl, ?_⟩
  · unfold add_user
    split <;> rfl
  · show List.Forall₂ _ db.items (db.items.map _)
    rw [List.forall₂_map_right_iff, List.forall₂_same]
    intro i _
    by_cases h : i.id = iid
    · rw [if_pos h]
      exact ⟨fun hne => absurd h hne, fun _ => ⟨rfl, rfl, rfl, rfl, rfl, rfl, rfl⟩⟩
    · rw [if_neg h]
      exact ⟨fun _ => rfl, fun heq => absurd heq h⟩

/-- Witness for C10 at concrete inputs. -/
theorem frame_append_only_w :
    (add_user (fun s => String.append s "#h") exCatalogDB "alice" "pw1").2.transactions
        = exCatalogDB.transactions ∧
    (add_item exCatalogDB "Pencil" 2 3 1 6 4).1.transactions = exCatalogDB.transactions ∧
    (∃ e, (update_stock exDate exCatalogDB 1 (-15) "alice").transactions
        = exCatalogDB.transactions ++ [e]) ∧
    (update_stock exDate exCatalogDB 1 (-15) "alice").users = exCatalogDB.users ∧
    List.Forall₂ (fun i j : Item =>
        (i.id ≠ 1 → j = i) ∧
        (i.id = 1 → j.id = i.id ∧ j.name = i.name ∧ j.shelf = i.shelf ∧
          j.row = i.row ∧ j.price = i.price ∧
          j.low_stock_threshold = i.low_stock_threshold ∧ j.stock = i.stock + (-15)))
      exCatalogDB.items (update_stock exDate exCatalogDB 1 (-15) "alice").items :=
  frame_append_only (fun s => String.append s "#h") exCatalogDB "alice" "pw1"
    "Pencil" 2 3 1 6 4 1 (-15) "alice" exDate

end Stationary
